import Mathlib

/-!
Verification development for the mcp-obsidian server core (src/index.ts).

The program is a Node/TypeScript process.  We shallowly embed the path
confinement engine (`normalizePath`, `expandHome`, `validatePath`) and the
four note operations, over a model of the Node `path` (posix flavour) and
`fs` primitives the code calls.  JavaScript strings are modelled as Lean
`String`s and the JavaScript / Node string operations are implemented by
structural recursion over the character list, so that every definition
evaluates inside the kernel on concrete inputs.

Filesystem state is abstracted as an `FS` record carrying the two effectful
primitives the validator uses (`fs.realpath`, `fs.readFile`); `fs.writeFile`
is modelled as a functional update producing a new `FS`.
-/

/-- Helper for `jsStartsWith`: tests whether the first list of characters is a
leading run of the second. -/
def strLeads : List Char → List Char → Bool
  | [], _ => true
  | _ :: _, [] => false
  | p :: ps, c :: cs => p == c && strLeads ps cs

/-- Model of JavaScript `String.prototype.startsWith(pre)`: the code units of
`pre` occur at the start of `s`. -/
def jsStartsWith (s pre : String) : Bool :=
  strLeads pre.data s.data

/-- Model of JavaScript `String.prototype.slice(n)` for a non-negative index:
drop the first `n` code units. -/
def jsSlice (s : String) (n : Nat) : String :=
  String.mk (s.data.drop n)

/-- ASCII lower-casing of one character, as JavaScript `toLowerCase` acts on
the ASCII range (the only characters exercised here). -/
def charLower (c : Char) : Char :=
  if 65 ≤ c.toNat && c.toNat ≤ 90 then Char.ofNat (c.toNat + 32) else c

/-- Model of JavaScript `String.prototype.toLowerCase()` (ASCII range). -/
def jsToLower (s : String) : String :=
  String.mk (s.data.map charLower)

/-- Helper for `jsSplit`: split a character list at every occurrence of `sep`,
accumulating the current (reversed) segment. -/
def splitCharAux (sep : Char) : List Char → List Char → List String
  | [], acc => [String.mk acc.reverse]
  | c :: cs, acc =>
    if c == sep then String.mk acc.reverse :: splitCharAux sep cs []
    else splitCharAux sep cs (c :: acc)

/-- Model of JavaScript `String.prototype.split(sep)` for a single-character
separator (the code splits on `path.sep`, which is one character). -/
def jsSplit (s : String) (sep : Char) : List String :=
  splitCharAux sep s.data []

/-- Model of JavaScript `Array.prototype.join(sep)`. -/
def jsJoin (sep : String) : List String → String
  | [] => ""
  | [x] => x
  | x :: xs => x ++ sep ++ jsJoin sep xs

/-- Node `path.sep` on posix: the forward slash. -/
def pathSep : Char := '/'

/-- Model of the segment pass of Node's internal `normalizeString` (posix):
drop empty and `.` segments; `..` pops a previous real segment, and when no
poppable segment remains it is kept only when `allowAboveRoot` is true.  The
first argument to the recursion is the (reversed) stack of kept segments. -/
def normSegs (allow : Bool) : List String → List String → List String
  | acc, [] => acc.reverse
  | acc, seg :: rest =>
    if seg == "" || seg == "." then normSegs allow acc rest
    else if seg == ".." then
      match acc with
      | top :: acc2 =>
        if top == ".." then normSegs allow (seg :: top :: acc2) rest
        else normSegs allow acc2 rest
      | [] => if allow then normSegs allow [seg] rest else normSegs allow [] rest
    else normSegs allow (seg :: acc) rest

/-- Model of Node's internal `normalizeString(path, allowAboveRoot)` (posix):
resolve `.` and `..` segments and collapse separators. -/
def normalizeString (p : String) (allowAboveRoot : Bool) : String :=
  jsJoin "/" (normSegs allowAboveRoot [] (jsSplit p pathSep))

/-- Model of Node `path.posix.normalize`. -/
def pathNormalize (p : String) : String :=
  if p == "" then "."
  else
    let isAbs := jsStartsWith p "/"
    let trailingSeparator :=
      match p.data.getLast? with
      | some c => c == pathSep
      | none => false
    let res := normalizeString p (!isAbs)
    if res == "" then
      if isAbs then "/" else if trailingSeparator then "./" else "."
    else
      let res2 := if trailingSeparator then res ++ "/" else res
      if isAbs then "/" ++ res2 else res2

/-- One step of Node `path.posix.resolve`'s right-to-left accumulation: once
the accumulated path is absolute (or the component is empty) the component is
ignored, otherwise it is prepended. -/
def resolveStep (p : String) (st : String × Bool) : String × Bool :=
  if st.2 then st
  else if p == "" then st
  else (p ++ "/" ++ st.1, jsStartsWith p "/")

/-- Model of Node `path.posix.resolve(...args)`; `cwd` is the process working
directory, consulted only when no argument makes the path absolute. -/
def pathResolve (cwd : String) (args : List String) : String :=
  let st := args.foldr resolveStep ("", false)
  let st2 := resolveStep cwd st
  let res := normalizeString st2.1 (!st2.2)
  if st2.2 then (if res == "" then "/" else "/" ++ res)
  else (if res == "" then "." else res)

/-- Model of Node `path.posix.join(...args)`: concatenate the non-empty
components with `/` and normalize; an all-empty argument list gives `.`. -/
def pathJoin (args : List String) : String :=
  let parts := args.filter (fun a => !(a == ""))
  if parts.isEmpty then "." else pathNormalize (jsJoin "/" parts)

/-- Model of Node `path.posix.isAbsolute`: the first code unit is `/`. -/
def isAbsolute (p : String) : Bool :=
  jsStartsWith p "/"

/-- Helper for `pathDirname`: Node's backwards scan for the slash that ends the
parent prefix.  The list is the reversed character list, `i` the index of its
head in the original string; indices below 1 are not inspected.  `matchedSlash`
is true while only trailing slashes have been seen. -/
def dirnameEnd : List Char → Nat → Bool → Option Nat
  | [], _, _ => none
  | c :: rest, i, matchedSlash =>
    if i == 0 then none
    else if c == '/' then
      if matchedSlash then dirnameEnd rest (i - 1) true
      else some i
    else dirnameEnd rest (i - 1) false

/-- Model of Node `path.posix.dirname`. -/
def pathDirname (p : String) : String :=
  if p == "" then "."
  else
    let hasRoot := jsStartsWith p "/"
    match dirnameEnd p.data.reverse (p.data.length - 1) true with
    | none => if hasRoot then "/" else "."
    | some e => if hasRoot && e == 1 then "//" else String.mk (p.data.take e)

/-- Process context fixed at startup: the allowed vault directories (stored in
normalized form, src/index.ts lines 33-36), the process working directory
(`process.cwd()`) and the user's home directory (`os.homedir()`). -/
structure Ctx where
  vaultDirectories : List String
  cwd : String
  homedir : String

/-- Model of `vaultDirectories[0]`, the primary allowed root (the program
always configures exactly one root, so the list is nonempty there). -/
def primaryRoot (ctx : Ctx) : String :=
  ctx.vaultDirectories.headD ""

/-- Filesystem abstraction: the two effectful primitives `validatePath` and the
read path of the handlers use.  `realpath` returns the symlink-free location of
an existing path and `none` when resolution fails (missing path); `readFile`
returns the contents or an error message. -/
structure FS where
  realpath : String → Option String
  readFile : String → Except String String

/-- Model of `fs.writeFile(p, c)` as a functional update.  Modelled from Node
filesystem semantics: the written path now holds content `c`; if the path did
not previously resolve, the created entry's real path is the written path
itself (the written path in the program is either already a real path or a
fresh absolute path whose parent was just confirmed real). -/
def FS.writeFile (fs : FS) (p : String) (c : String) : FS where
  realpath := fun q => if q = p then some ((fs.realpath p).getD p) else fs.realpath q
  readFile := fun q => if q = p then Except.ok c else fs.readFile q

/-- Model of the errors `validatePath` can propagate to its caller.  The
"symlink target outside allowed directories" throw (line 101) is raised inside
the same `try` whose `catch` starts the parent-directory fallback, so it never
escapes; the "parent directory outside" throw (line 116) is raised inside the
inner `try` and is converted by the inner `catch` (line 121) into the
parent-directory-does-not-exist error.  Hence only these three errors are
observable. -/
inductive VErr where
  | hiddenNotAllowed : VErr
  | outsideAllowed (absolute : String) : VErr
  | parentNotExist (parentDir : String) : VErr
deriving DecidableEq

/-- Whether an error is one of the "Access denied - ..." errors. -/
def VErr.isAccessDenied : VErr → Bool
  | .hiddenNotAllowed => true
  | .outsideAllowed _ => true
  | .parentNotExist _ => false

/-- Exact message text of each observable `validatePath` error
(src/index.ts lines 71, 86-90, 122). -/
def errText (ctx : Ctx) : VErr → String
  | .hiddenNotAllowed => "Access denied - hidden files/directories not allowed"
  | .outsideAllowed absolute =>
    "Access denied - path outside allowed directories: " ++ absolute ++
      " not in " ++ jsJoin ", " ctx.vaultDirectories
  | .parentNotExist parentDir => "Parent directory does not exist: " ++ parentDir

/-- Model of `expandHome` (src/index.ts lines 43-48). -/
def expandHome (homedir : String) (filepath : String) : String :=
  if jsStartsWith filepath "~/" || filepath == "~" then
    pathJoin [homedir, jsSlice filepath 1]
  else filepath

/-- Model of `normalizePath` (src/index.ts lines 39-41):
`path.normalize(p).toLowerCase()`. -/
def normalizePath (p : String) : String :=
  jsToLower (pathNormalize p)

/-- Hidden-segment test of `validatePath` (lines 69-70): split the raw
requested path on `path.sep` and look for a segment starting with a dot. -/
def hasHiddenSegment (requestedPath : String) : Bool :=
  (jsSplit requestedPath pathSep).any fun part => jsStartsWith part "."

/-- Absolute form of the candidate (lines 74-77): expand a home shorthand,
then `path.resolve` it, against the working directory when relative. -/
def candidateAbsolute (ctx : Ctx) (requestedPath : String) : String :=
  let expandedPath := expandHome ctx.homedir requestedPath
  if isAbsolute expandedPath then pathResolve ctx.cwd [expandedPath]
  else pathResolve ctx.cwd [ctx.cwd, expandedPath]

/-- Model of the parent-directory fallback (the outer `catch`, lines 106-124):
resolve the real path of `path.dirname(absolute)`; if that succeeds and is
allowed, return the original absolute path; otherwise fail with the
parent-directory error (the not-allowed throw on line 116 is swallowed by the
inner `catch` and re-raised as this same error). -/
def parentFallback (ctx : Ctx) (fs : FS) (absolute : String) : Except VErr String :=
  let parentDir := pathDirname absolute
  match fs.realpath parentDir with
  | some realParentPath =>
    let normalizedParent := normalizePath realParentPath
    let isParentAllowed := ctx.vaultDirectories.any fun dir =>
      jsStartsWith normalizedParent dir
    if isParentAllowed then Except.ok absolute
    else Except.error (VErr.parentNotExist parentDir)
  | none => Except.error (VErr.parentNotExist parentDir)

/-- Model of `validatePath` (src/index.ts lines 67-125).  Note the control
flow around the `try`/`catch` (lines 93-124): both a failing
`fs.realpath(absolute)` and the "symlink target outside allowed directories"
throw land in the `catch` block, i.e. in `parentFallback`. -/
def validatePath (ctx : Ctx) (fs : FS) (requestedPath : String) : Except VErr String :=
  if hasHiddenSegment requestedPath then Except.error VErr.hiddenNotAllowed
  else
    let absolute := candidateAbsolute ctx requestedPath
    let normalizedRequested := normalizePath absolute
    let isAllowed := ctx.vaultDirectories.any fun dir =>
      jsStartsWith normalizedRequested dir
    if !isAllowed then Except.error (VErr.outsideAllowed absolute)
    else
      match fs.realpath absolute with
      | some realPath =>
        let normalizedReal := normalizePath realPath
        let isRealPathAllowed := ctx.vaultDirectories.any fun dir =>
          jsStartsWith normalizedReal dir
        if isRealPathAllowed then Except.ok realPath
        else parentFallback ctx fs absolute
      | none => parentFallback ctx fs absolute

/-- Response returned by a tool handler: the joined text payload and the
`isError` flag (absent in the success objects, i.e. false). -/
structure ToolResponse where
  text : String
  isErrorFlag : Bool
deriving DecidableEq

/-- Model of the per-item processing of the `obsidian_read_notes` handler
(src/index.ts lines 261-272): join the argument onto the primary root,
validate, read, and render either the content or an inline error string. -/
def readNoteResult (ctx : Ctx) (fs : FS) (filePath : String) : String :=
  match validatePath ctx fs (pathJoin [primaryRoot ctx, filePath]) with
  | Except.ok validPath =>
    match fs.readFile validPath with
    | Except.ok content => filePath ++ ":\n" ++ content ++ "\n"
    | Except.error msg => filePath ++ ": Error - " ++ msg
  | Except.error e => filePath ++ ": Error - " ++ errText ctx e

/-- Result list of `obsidian_read_notes` (lines 260-274): one fragment per
input path, in input order. -/
def readNotesResults (ctx : Ctx) (fs : FS) (paths : List String) : List String :=
  paths.map (readNoteResult ctx fs)

/-- Model of the `obsidian_read_notes` handler response (lines 275-277). -/
def readNotesResponse (ctx : Ctx) (fs : FS) (paths : List String) : ToolResponse :=
  { text := jsJoin "\n---\n" (readNotesResults ctx fs paths), isErrorFlag := false }

/-- The search result cap (src/index.ts line 17). -/
def SEARCH_LIMIT : Nat := 200

/-- Model of the `obsidian_search_notes` response text construction
(src/index.ts lines 288-304) over the list of matching note paths. -/
def searchNotesResponseText (results : List String) : String :=
  let limitedResults := results.take SEARCH_LIMIT
  (if 0 < limitedResults.length then jsJoin "\n" limitedResults
   else "No matches found") ++
  (if SEARCH_LIMIT < results.length then
    "\n\n... " ++ toString (results.length - SEARCH_LIMIT) ++ " more results not shown."
   else "")

/-- Model of the validation step of the `obsidian_read_notes_dir` handler
(src/index.ts lines 314-316); the subsequent directory walk is not needed by
the claims. -/
def readNotesDirValidate (ctx : Ctx) (fs : FS) (dirPath : String) : Except VErr String :=
  validatePath ctx fs (pathJoin [primaryRoot ctx, dirPath])

/-- Model of the `obsidian_write_note` handler (src/index.ts lines 343-377):
on successful validation write the content and answer with a success message;
on a validation (or write) failure answer with the guidance message listing
the allowed directories, flagged as an error, leaving the filesystem as it
was. -/
def writeNote (ctx : Ctx) (fs : FS) (notePath : String) (content : String) :
    FS × ToolResponse :=
  match validatePath ctx fs (pathJoin [primaryRoot ctx, notePath]) with
  | Except.ok validPath =>
    (fs.writeFile validPath content,
      { text := "Note successfully written to " ++ notePath, isErrorFlag := false })
  | Except.error _ =>
    (fs,
      { text := "Please specify the target directory. Available directories:\n" ++
          jsJoin "\n" ctx.vaultDirectories,
        isErrorFlag := true })

example : pathNormalize "/foo/bar//baz/asdf/quux/.." = "/foo/bar/baz/asdf" := rfl
example : pathJoin ["/vault", "/etc/passwd"] = "/vault/etc/passwd" := rfl
example : pathJoin ["/vault", "../etc"] = "/etc" := rfl
example : pathJoin ["/vault", "notes/a.md"] = "/vault/notes/a.md" := rfl
example : pathResolve "/cwd" ["x/y"] = "/cwd/x/y" := rfl
example : pathResolve "/cwd" ["/a", "b"] = "/a/b" := rfl
example : pathDirname "/vault/new.md" = "/vault" := rfl
example : pathDirname "/x" = "/" := rfl
example : jsToLower "AbC/dEf" = "abc/def" := rfl
example : jsSplit "a/.b/c" pathSep = ["a", ".b", "c"] := rfl
example : jsJoin ", " ["a", "b"] = "a, b" := rfl

/-- Concrete context used by the witnesses: a single allowed root `/vault`
(stored, as at startup, in normalized form). -/
def ctxA : Ctx :=
  { vaultDirectories := ["/vault"], cwd := "/cwd", homedir := "/home/u" }

/-- Concrete filesystem holding a symlink `/vault/link` whose target
`/etc/secret` lies outside the allowed root. -/
def fsLink : FS where
  realpath := fun p =>
    if p = "/vault/link" then some "/etc/secret"
    else if p = "/vault" then some "/vault" else none
  readFile := fun _ => Except.error "ENOENT: no such file or directory"

/-- Concrete filesystem where only the vault root itself exists. -/
def fsNew : FS where
  realpath := fun p => if p = "/vault" then some "/vault" else none
  readFile := fun _ => Except.error "ENOENT: no such file or directory"

/-- Concrete filesystem holding one regular note `/vault/a.md`. -/
def fsAB : FS where
  realpath := fun p =>
    if p = "/vault/a.md" then some "/vault/a.md"
    else if p = "/vault" then some "/vault" else none
  readFile := fun p =>
    if p = "/vault/a.md" then Except.ok "hello"
    else Except.error "ENOENT: no such file or directory"

/-- Helper: when the parent-directory fallback succeeds it returns exactly the
absolute path it was given. -/
theorem parentFallback_ok_eq (ctx : Ctx) (fs : FS) (a r : String)
    (h : parentFallback ctx fs a = Except.ok r) : r = a := by
  simp only [parentFallback] at h
  split at h
  · split at h
    · simp only [Except.ok.injEq] at h
      exact h.symm
    · simp at h
  · simp at h

/-- C3: for every candidate path in which some separator-delimited segment
starts with a dot, `validatePath` fails with the hidden-segment AccessDenied
error, for every filesystem (hence regardless of whether the target exists)
and wherever in the path the segment occurs. -/
theorem c3_hidden_segment_always_denied (ctx : Ctx) (fs : FS) (requestedPath : String)
    (h : hasHiddenSegment requestedPath = true) :
    validatePath ctx fs requestedPath = Except.error VErr.hiddenNotAllowed ∧
    VErr.hiddenNotAllowed.isAccessDenied = true := by
  refine ⟨?_, rfl⟩
  simp [validatePath, h]

/-- Witness for C3 at the concrete candidate "notes/.hidden" (final segment
hidden, target nonexistent). -/
theorem c3_witness :
    hasHiddenSegment "notes/.hidden" = true ∧
    validatePath ctxA fsLink "notes/.hidden" = Except.error VErr.hiddenNotAllowed :=
  ⟨rfl, (c3_hidden_segment_always_denied ctxA fsLink "notes/.hidden" rfl).1⟩

/-- C4: a candidate whose normalized absolute form has no allowed root as a
string prefix is rejected with an AccessDenied error, and the outcome is the
same for every filesystem (the check precedes any filesystem access). -/
theorem c4_outside_root_denied_without_fs (ctx : Ctx) (fs fs2 : FS) (p : String)
    (h : (ctx.vaultDirectories.any fun dir =>
      jsStartsWith (normalizePath (candidateAbsolute ctx p)) dir) = false) :
    (∃ e, validatePath ctx fs p = Except.error e ∧ e.isAccessDenied = true) ∧
    validatePath ctx fs p = validatePath ctx fs2 p := by
  by_cases hh : hasHiddenSegment p
  · exact ⟨⟨VErr.hiddenNotAllowed, by simp [validatePath, hh], rfl⟩,
      by simp [validatePath, hh]⟩
  · exact ⟨⟨VErr.outsideAllowed (candidateAbsolute ctx p),
      by simp [validatePath, hh, h], rfl⟩, by simp [validatePath, hh, h]⟩

/-- Witness for C4 at the concrete candidate "/other/x" under root "/vault". -/
theorem c4_witness :
    ((ctxA.vaultDirectories.any fun dir =>
      jsStartsWith (normalizePath (candidateAbsolute ctxA "/other/x")) dir) = false) ∧
    validatePath ctxA fsLink "/other/x" = validatePath ctxA fsNew "/other/x" ∧
    (∃ e, validatePath ctxA fsLink "/other/x" = Except.error e ∧
      e.isAccessDenied = true) :=
  ⟨rfl, (c4_outside_root_denied_without_fs ctxA fsLink fsNew "/other/x" rfl).2,
    (c4_outside_root_denied_without_fs ctxA fsLink fsNew "/other/x" rfl).1⟩

/-- C5: for a candidate naming a not-yet-existing target (realpath fails)
whose candidate passes the hidden-segment and prefix checks and whose parent
directory has an allowed real path, `validatePath` succeeds and returns the
original absolute candidate (not the parent's real path, not a realpath). -/
theorem c5_new_file_returns_absolute_candidate (ctx : Ctx) (fs : FS) (p rp : String)
    (hh : hasHiddenSegment p = false)
    (hallow : (ctx.vaultDirectories.any fun dir =>
      jsStartsWith (normalizePath (candidateAbsolute ctx p)) dir) = true)
    (hmissing : fs.realpath (candidateAbsolute ctx p) = none)
    (hparent : fs.realpath (pathDirname (candidateAbsolute ctx p)) = some rp)
    (hpallow : (ctx.vaultDirectories.any fun dir =>
      jsStartsWith (normalizePath rp) dir) = true) :
    validatePath ctx fs p = Except.ok (candidateAbsolute ctx p) := by
  simp [validatePath, hh, hallow, hmissing, parentFallback, hparent, hpallow]

/-- Witness for C5 at the concrete new file "/vault/new.md". -/
theorem c5_witness :
    fsNew.realpath (candidateAbsolute ctxA "/vault/new.md") = none ∧
    validatePath ctxA fsNew "/vault/new.md" = Except.ok (candidateAbsolute ctxA "/vault/new.md") :=
  ⟨rfl, c5_new_file_returns_absolute_candidate ctxA fsNew "/vault/new.md" "/vault"
    rfl rfl rfl rfl rfl⟩

/-- C1 (code bug): for the concrete symlink `/vault/link` inside the allowed
root pointing at `/etc/secret` outside every allowed root, `validatePath`
does NOT fail with AccessDenied: the "symlink target outside allowed
directories" throw is raised inside the very `try` whose `catch` starts the
parent-directory fallback, the parent `/vault` is allowed, and the symlink
path itself is returned. -/
theorem c1_symlink_escape_not_denied :
    fsLink.realpath "/vault/link" = some "/etc/secret" ∧
    (ctxA.vaultDirectories.any fun dir =>
      jsStartsWith (normalizePath "/etc/secret") dir) = false ∧
    validatePath ctxA fsLink "/vault/link" = Except.ok "/vault/link" :=
  ⟨rfl, rfl, rfl⟩

/-- C9: when validation of the write path fails, the write handler returns a
response (no exception reaches the transport layer) flagged as an error whose
text lists the allowed root directories, and the filesystem is unchanged. -/
theorem c9_write_validation_failure_soft (ctx : Ctx) (fs : FS) (p c : String) (e : VErr)
    (h : validatePath ctx fs (pathJoin [primaryRoot ctx, p]) = Except.error e) :
    writeNote ctx fs p c =
      (fs,
        { text := "Please specify the target directory. Available directories:\n" ++
            jsJoin "\n" ctx.vaultDirectories,
          isErrorFlag := true }) := by
  simp [writeNote, h]

/-- Witness for C9 at the concrete hidden write path ".hid". -/
theorem c9_witness :
    validatePath ctxA fsNew (pathJoin [primaryRoot ctxA, ".hid"]) =
      Except.error VErr.hiddenNotAllowed ∧
    writeNote ctxA fsNew ".hid" "c" =
      (fsNew,
        { text := "Please specify the target directory. Available directories:\n" ++
            jsJoin "\n" ctxA.vaultDirectories,
          isErrorFlag := true }) :=
  ⟨rfl, c9_write_validation_failure_soft ctxA fsNew ".hid" "c" VErr.hiddenNotAllowed rfl⟩

/-- C2: every path that `validatePath` returns successfully has, in normalized
form, some stored allowed root (itself kept in normalized form) as a string
prefix; the proof covers both return points (the realpath return and the
non-existent-target fallback return of the absolute candidate). -/
theorem c2_success_confined (ctx : Ctx) (fs : FS) (p r : String)
    (h : validatePath ctx fs p = Except.ok r) :
    (ctx.vaultDirectories.any fun dir => jsStartsWith (normalizePath r) dir) = true := by
  simp only [validatePath] at h
  split at h
  · simp at h
  · split at h
    · simp at h
    · rename_i hAllowed
      split at h
      · split at h
        · rename_i hReal
          simp only [Except.ok.injEq] at h
          subst h
          exact hReal
        · have hr := parentFallback_ok_eq ctx fs _ r h
          subst hr
          simpa using hAllowed
      · have hr := parentFallback_ok_eq ctx fs _ r h
        subst hr
        simpa using hAllowed

/-- Witness for C2 at the concrete success of the new-file fallback. -/
theorem c2_witness :
    validatePath ctxA fsNew "/vault/new.md" = Except.ok "/vault/new.md" ∧
    (ctxA.vaultDirectories.any fun dir =>
      jsStartsWith (normalizePath "/vault/new.md") dir) = true :=
  ⟨rfl, c2_success_confined ctxA fsNew "/vault/new.md" "/vault/new.md" rfl⟩

/-- C6: with more than SEARCH_LIMIT (200) matches, the search response is
exactly the first 200 entries joined, followed by a trailing message naming
the number of omitted matches; with at most 200 matches no message is
appended. -/
theorem c6_search_cap_and_omitted_message (results : List String) :
    (SEARCH_LIMIT < results.length →
      searchNotesResponseText results =
        jsJoin "\n" (results.take SEARCH_LIMIT) ++
          ("\n\n... " ++ toString (results.length - SEARCH_LIMIT) ++
            " more results not shown.") ∧
      (results.take SEARCH_LIMIT).length = SEARCH_LIMIT) ∧
    (results.length ≤ SEARCH_LIMIT →
      searchNotesResponseText results =
        (if 0 < results.length then jsJoin "\n" results else "No matches found")) := by
  constructor
  · intro h
    have hlen : (results.take SEARCH_LIMIT).length = SEARCH_LIMIT := by
      simp [List.length_take]
      omega
    refine ⟨?_, hlen⟩
    unfold searchNotesResponseText
    dsimp only
    rw [if_pos h, if_pos (show 0 < (List.take SEARCH_LIMIT results).length by
      rw [hlen]; simp [SEARCH_LIMIT])]
  · intro h
    unfold searchNotesResponseText
    rw [if_neg (by omega), List.take_of_length_le h]
    have : ∀ s : String, s ++ "" = s := by
      intro s
      cases s
      show String.mk (_ ++ []) = _
      rw [List.append_nil]
    rw [this]

/-- Witness for C6 at a concrete list of 250 matches (and the cap length). -/
theorem c6_witness :
    SEARCH_LIMIT < (List.replicate 250 "x.md").length ∧
    searchNotesResponseText (List.replicate 250 "x.md") =
      jsJoin "\n" ((List.replicate 250 "x.md").take SEARCH_LIMIT) ++
        ("\n\n... " ++ toString ((List.replicate 250 "x.md").length - SEARCH_LIMIT) ++
          " more results not shown.") ∧
    ((List.replicate 250 "x.md").take SEARCH_LIMIT).length = SEARCH_LIMIT :=
  ⟨by (rw [List.length_replicate]; norm_num [SEARCH_LIMIT]),
    ((c6_search_cap_and_omitted_message (List.replicate 250 "x.md")).1
      (by rw [List.length_replicate]; norm_num [SEARCH_LIMIT])).1,
    ((c6_search_cap_and_omitted_message (List.replicate 250 "x.md")).1
      (by rw [List.length_replicate]; norm_num [SEARCH_LIMIT])).2⟩

/-- C7: the read-many operation yields one result fragment per input path, in
input order (item i of the output renders item i of the input); a per-item
validation failure yields that item's inline error string at its position;
and the overall response carries no error flag. -/
theorem c7_read_many_per_item (ctx : Ctx) (fs : FS) (paths : List String) :
    (readNotesResults ctx fs paths).length = paths.length ∧
    (∀ i : Nat, (readNotesResults ctx fs paths)[i]? =
      (paths[i]?).map (readNoteResult ctx fs)) ∧
    (∀ i : Nat, ∀ fp : String, ∀ e : VErr, paths[i]? = some fp →
      validatePath ctx fs (pathJoin [primaryRoot ctx, fp]) = Except.error e →
      (readNotesResults ctx fs paths)[i]? =
        some (fp ++ ": Error - " ++ errText ctx e)) ∧
    (readNotesResponse ctx fs paths).isErrorFlag = false := by
  refine ⟨by simp [readNotesResults], fun i => by simp [readNotesResults], ?_, rfl⟩
  intro i fp e hip hv
  simp [readNotesResults, hip, readNoteResult, hv]

/-- Witness for C7: a concrete batch with one readable note and one path that
fails validation; two fragments in input order, no error flag. -/
theorem c7_witness :
    (readNotesResults ctxA fsAB ["a.md", ".hid"]).length = 2 ∧
    (readNotesResults ctxA fsAB ["a.md", ".hid"])[0]? = some "a.md:\nhello\n" ∧
    (readNotesResults ctxA fsAB ["a.md", ".hid"])[1]? =
      some (".hid: Error - " ++ errText ctxA VErr.hiddenNotAllowed) ∧
    (readNotesResponse ctxA fsAB ["a.md", ".hid"]).isErrorFlag = false := by
  refine ⟨(c7_read_many_per_item ctxA fsAB _).1, ?_,
    (c7_read_many_per_item ctxA fsAB _).2.2.1 1 ".hid" VErr.hiddenNotAllowed rfl rfl,
    (c7_read_many_per_item ctxA fsAB _).2.2.2⟩
  rw [(c7_read_many_per_item ctxA fsAB ["a.md", ".hid"]).2.1 0]
  rfl

/-- Helper: full elimination of a successful parent-directory fallback. -/
theorem parentFallback_ok_elim (ctx : Ctx) (fs : FS) (a r : String)
    (h : parentFallback ctx fs a = Except.ok r) :
    r = a ∧ ∃ rp, fs.realpath (pathDirname a) = some rp ∧
      (ctx.vaultDirectories.any fun dir => jsStartsWith (normalizePath rp) dir) = true := by
  simp only [parentFallback] at h
  split at h
  · rename_i rp hrp
    split at h
    · rename_i hallow
      simp only [Except.ok.injEq] at h
      exact ⟨h.symm, rp, hrp, hallow⟩
    · simp at h
  · simp at h

/-- Helper: introduction rule for a successful parent-directory fallback. -/
theorem parentFallback_ok_intro (ctx : Ctx) (fs : FS) (a rp : String)
    (hrp : fs.realpath (pathDirname a) = some rp)
    (hallow : (ctx.vaultDirectories.any fun dir =>
      jsStartsWith (normalizePath rp) dir) = true) :
    parentFallback ctx fs a = Except.ok a := by
  simp [parentFallback, hrp, hallow]

/-- C8: if the write operation validates its path successfully (returning
resolved path v) and writes content c there, an immediately following read of
the same argument path returns exactly c as that item's content. -/
theorem c8_write_then_read_roundtrip (ctx : Ctx) (fs : FS) (p c v : String)
    (hv : validatePath ctx fs (pathJoin [primaryRoot ctx, p]) = Except.ok v) :
    readNoteResult ctx (writeNote ctx fs p c).1 p = p ++ ":\n" ++ c ++ "\n" := by
  have hw : (writeNote ctx fs p c).1 = fs.writeFile v c := by
    simp [writeNote, hv]
  have hval2 :
      validatePath ctx (fs.writeFile v c) (pathJoin [primaryRoot ctx, p]) = Except.ok v := by
    simp only [validatePath] at hv ⊢
    generalize hA : candidateAbsolute ctx (pathJoin [primaryRoot ctx, p]) = A at hv ⊢
    split at hv
    · simp at hv
    · rename_i hh
      rw [if_neg hh]
      split at hv
      · simp at hv
      · rename_i hAllowed
        rw [if_neg hAllowed]
        cases hre : fs.realpath A with
        | none =>
          rw [hre] at hv
          obtain ⟨hva, rp, hrp, hallowp⟩ := parentFallback_ok_elim _ _ _ _ hv
          subst hva
          have hwr : (fs.writeFile v c).realpath v = some v := by
            simp [FS.writeFile, hre]
          rw [hwr]
          dsimp only
          rw [if_pos (by simpa using hAllowed)]
        | some w =>
          rw [hre] at hv
          dsimp only at hv
          by_cases hok : (ctx.vaultDirectories.any fun dir =>
            jsStartsWith (normalizePath w) dir) = true
          · rw [if_pos hok] at hv
            injection hv with hwv
            rw [← hwv]
            have hwr : (fs.writeFile w c).realpath A = some w := by
              by_cases hAw : A = w
              · subst hAw
                simp [FS.writeFile, hre]
              · simp [FS.writeFile, hAw, hre]
            rw [hwr]
            dsimp only
            rw [if_pos hok]
          · rw [if_neg hok] at hv
            obtain ⟨hva, rp, hrp, hallowp⟩ := parentFallback_ok_elim _ _ _ _ hv
            subst hva
            have hwr : (fs.writeFile v c).realpath v = some w := by
              simp [FS.writeFile, hre]
            rw [hwr]
            dsimp only
            rw [if_neg hok]
            by_cases hdA : pathDirname v = v
            · rw [hdA, hre] at hrp
              simp only [Option.some.injEq] at hrp
              subst hrp
              exact absurd hallowp hok
            · refine parentFallback_ok_intro ctx _ v rp ?_ hallowp
              simp [FS.writeFile, hdA, hrp]
  rw [hw]
  unfold readNoteResult
  rw [hval2]
  simp [FS.writeFile]

/-- Witness for C8: writing a new note "b.md" and reading it back. -/
theorem c8_witness :
    validatePath ctxA fsAB (pathJoin [primaryRoot ctxA, "b.md"]) = Except.ok "/vault/b.md" ∧
    readNoteResult ctxA (writeNote ctxA fsAB "b.md" "new content").1 "b.md" =
      "b.md:\nnew content\n" :=
  ⟨rfl, c8_write_then_read_roundtrip ctxA fsAB "b.md" "new content" "/vault/b.md" rfl⟩

/-- Helper: appending concatenates the character lists. -/
theorem data_append (a b : String) : (a ++ b).data = a.data ++ b.data := by
  cases a
  cases b
  rfl

/-- Helper: a string starts with "/" exactly when its first character is '/'. -/
theorem jsStartsWith_slash (s : String) :
    jsStartsWith s "/" = true ↔ ∃ l, s.data = '/' :: l := by
  obtain ⟨d⟩ := s
  show strLeads ['/'] d = true ↔ ∃ l, d = '/' :: l
  cases d with
  | nil => simp [strLeads]
  | cons c cs =>
    show (('/' == c) && strLeads [] cs) = true ↔ ∃ l, c :: cs = '/' :: l
    constructor
    · intro hb
      have hb2 : ('/' == c) = true ∧ strLeads [] cs = true := by
        simpa [Bool.and_eq_true] using hb
      have hc : '/' = c := beq_iff_eq.1 hb2.1
      exact ⟨cs, by rw [← hc]⟩
    · rintro ⟨l, hl⟩
      injection hl with h1 h2
      rw [h1]
      rfl

/-- Helper: a string starting with "/" keeps doing so after appending. -/
theorem jsStartsWith_slash_append (s t : String) (h : jsStartsWith s "/" = true) :
    jsStartsWith (s ++ t) "/" = true := by
  rw [jsStartsWith_slash] at h ⊢
  obtain ⟨l, hl⟩ := h
  refine ⟨l ++ t.data, ?_⟩
  rw [data_append, hl]
  rfl

/-- Helper: a string starting with "/" is nonempty. -/
theorem slash_ne_empty (s : String) (h : jsStartsWith s "/" = true) :
    (s == "") = false := by
  rw [jsStartsWith_slash] at h
  obtain ⟨l, hl⟩ := h
  rw [beq_eq_false_iff_ne]
  intro he
  rw [he] at hl
  cases hl

/-- Helper: normalization keeps a path absolute. -/
theorem pathNormalize_slash (p : String) (h : jsStartsWith p "/" = true) :
    jsStartsWith (pathNormalize p) "/" = true := by
  unfold pathNormalize
  rw [slash_ne_empty p h]
  dsimp only
  rw [h]
  split
  · rename_i hcontra
    exact absurd hcontra (by simp)
  · simp only [eq_self_iff_true, if_true]
    split
    · rfl
    · exact jsStartsWith_slash_append "/" _ rfl

/-- Helper: joining anything onto an absolute first component stays absolute. -/
theorem pathJoin_root_slash (r a : String) (h : jsStartsWith r "/" = true) :
    jsStartsWith (pathJoin [r, a]) "/" = true := by
  have hne := slash_ne_empty r h
  by_cases ha : (a == "") = true
  · have : pathJoin [r, a] = pathNormalize r := by
      simp [pathJoin, List.filter, hne, ha, jsJoin]
    rw [this]
    exact pathNormalize_slash r h
  · have : pathJoin [r, a] = pathNormalize (r ++ "/" ++ a) := by
      simp [pathJoin, List.filter, hne, eq_false_of_ne_true ha, jsJoin]
    rw [this]
    exact pathNormalize_slash _ (jsStartsWith_slash_append _ _ (jsStartsWith_slash_append _ _ h))

/-- Helper: home expansion leaves an absolute path unchanged. -/
theorem expandHome_absolute (hd p : String) (h : jsStartsWith p "/" = true) :
    expandHome hd p = p := by
  obtain ⟨l, hl⟩ := (jsStartsWith_slash p).1 h
  have h1 : jsStartsWith p "~/" = false := by
    show strLeads ("~/").data p.data = false
    rw [hl]
    rfl
  have h2 : (p == "~") = false := by
    rw [beq_eq_false_iff_ne]
    intro he
    rw [he] at hl
    cases hl
  unfold expandHome
  rw [h1, h2]
  rfl

/-- Helper: resolving a single absolute argument never consults the working
directory. -/
theorem pathResolve_absolute (cwd cwd2 p : String) (h : jsStartsWith p "/" = true) :
    pathResolve cwd [p] = pathResolve cwd2 [p] := by
  have hne := slash_ne_empty p h
  simp [pathResolve, resolveStep, hne, h]

/-- Helper: the absolute form of an absolute candidate does not depend on the
working directory. -/
theorem candidateAbsolute_cwd (ctx : Ctx) (c : String) (p : String)
    (h : jsStartsWith p "/" = true) :
    candidateAbsolute { ctx with cwd := c } p = candidateAbsolute ctx p := by
  unfold candidateAbsolute
  show (if isAbsolute (expandHome ctx.homedir p) = true then
      pathResolve c [expandHome ctx.homedir p]
    else pathResolve c [c, expandHome ctx.homedir p]) = _
  rw [expandHome_absolute ctx.homedir p h]
  rw [show isAbsolute p = true from h]
  simp only [eq_self_iff_true, if_true]
  rw [if_pos (show isAbsolute p = true from h)]
  exact pathResolve_absolute c ctx.cwd p h

/-- Helper: on an absolute candidate, `validatePath` does not depend on the
working directory. -/
theorem validatePath_cwd (ctx : Ctx) (c : String) (fs : FS) (p : String)
    (h : jsStartsWith p "/" = true) :
    validatePath { ctx with cwd := c } fs p = validatePath ctx fs p := by
  unfold validatePath
  rw [candidateAbsolute_cwd ctx c p h]
  rfl

/-- Helper: error messages do not depend on the working directory. -/
theorem errText_cwd (ctx : Ctx) (c : String) (e : VErr) :
    errText { ctx with cwd := c } e = errText ctx e := by
  cases e <;> rfl

/-- C10: the read-many per-item, list-directories and write-one operations all
validate `path.join(vaultDirectories[0], arg)`: the primary allowed root is
prepended by path joining before validation, the joined candidate is always
absolute, and consequently the operations are invariant under the process
working directory (no argument — including an argument that is itself an
absolute path — is interpreted as an absolute location or relative to the
working directory). -/
theorem c10_operations_prepend_primary_root (ctx : Ctx) (fs : FS)
    (a content c1 c2 : String)
    (habs : jsStartsWith (primaryRoot ctx) "/" = true) :
    jsStartsWith (pathJoin [primaryRoot ctx, a]) "/" = true ∧
    readNotesDirValidate ctx fs a = validatePath ctx fs (pathJoin [primaryRoot ctx, a]) ∧
    readNoteResult { ctx with cwd := c1 } fs a = readNoteResult { ctx with cwd := c2 } fs a ∧
    writeNote { ctx with cwd := c1 } fs a content =
      writeNote { ctx with cwd := c2 } fs a content ∧
    readNotesDirValidate { ctx with cwd := c1 } fs a =
      readNotesDirValidate { ctx with cwd := c2 } fs a := by
  have hj : jsStartsWith (pathJoin [primaryRoot ctx, a]) "/" = true :=
    pathJoin_root_slash _ _ habs
  have hpr1 : primaryRoot { ctx with cwd := c1 } = primaryRoot ctx := rfl
  have hpr2 : primaryRoot { ctx with cwd := c2 } = primaryRoot ctx := rfl
  have hv12 : ∀ cx : String,
      validatePath { ctx with cwd := cx } fs (pathJoin [primaryRoot ctx, a]) =
        validatePath ctx fs (pathJoin [primaryRoot ctx, a]) := fun cx =>
    validatePath_cwd ctx cx fs _ hj
  refine ⟨hj, rfl, ?_, ?_, ?_⟩
  · unfold readNoteResult
    rw [hpr1, hpr2, hv12 c1, hv12 c2]
    cases validatePath ctx fs (pathJoin [primaryRoot ctx, a]) with
    | ok w => rfl
    | error e =>
      dsimp only
      rw [errText_cwd ctx c1 e, errText_cwd ctx c2 e]
  · unfold writeNote
    rw [hpr1, hpr2, hv12 c1, hv12 c2]
  · unfold readNotesDirValidate
    rw [hpr1, hpr2, hv12 c1, hv12 c2]

/-- Witness for C10 at the concrete context, an absolute argument and two
different working directories. -/
theorem c10_witness :
    jsStartsWith (primaryRoot ctxA) "/" = true ∧
    pathJoin [primaryRoot ctxA, "/abs/x.md"] = "/vault/abs/x.md" ∧
    readNoteResult { ctxA with cwd := "/cwd1" } fsNew "/abs/x.md" =
      readNoteResult { ctxA with cwd := "/cwd2" } fsNew "/abs/x.md" ∧
    writeNote { ctxA with cwd := "/cwd1" } fsNew "/abs/x.md" "c" =
      writeNote { ctxA with cwd := "/cwd2" } fsNew "/abs/x.md" "c" :=
  ⟨rfl, rfl,
    (c10_operations_prepend_primary_root ctxA fsNew "/abs/x.md" "c" "/cwd1" "/cwd2" rfl).2.2.1,
    (c10_operations_prepend_primary_root ctxA fsNew "/abs/x.md" "c" "/cwd1" "/cwd2" rfl).2.2.2.1⟩
